import Mathlib

/-!
Verification of the inkypi waste-display core against its specification:
the HTTP fetch retry loop (`utils/api_client.py`), the schedule data model
(`core/models.py`), the change-tracking state store (`utils/state.py`), the
repository (`core/waste_repository.py`) and the orchestrator cycle
(`core/app.py`), shallowly embedded from the Python sources.

Modelling conventions:
* Python strings are lists of Unicode code points (`PyStr`).
* `datetime` values are minutes since the epoch (`Nat`); `.date()` is
  integer division by 1440.  Time-zone offsets are not modelled; the
  current instant is passed explicitly to every operation that reads the
  clock.
* JSON-compatible Python data is the inductive `Json`; IEEE floats are not
  modelled (the only float literal the sources introduce is the default
  `0.0`, modelled as the integer zero).
-/

/-- Python strings, modelled as lists of Unicode code points. -/
abbrev PyStr := List Nat

/-- Code points of a Lean string literal, for writing concrete Python strings. -/
def pyStr (s : String) : PyStr := s.toList.map Char.toNat

/-- JSON-compatible Python values handled by this program: `None`, booleans,
integers, strings, lists, and (insertion-ordered) dicts with string keys. -/
inductive Json where
  | null : Json
  | bool : Bool → Json
  | int : Int → Json
  | str : PyStr → Json
  | arr : List Json → Json
  | obj : List (PyStr × Json) → Json

mutual

/-- Structural equality of JSON values, the meaning of Python `==`/`!=` on
JSON-compatible data (deep equality). -/
def Json.beq : Json → Json → Bool
  | .null, .null => true
  | .bool a, .bool b => a == b
  | .int a, .int b => a == b
  | .str a, .str b => a == b
  | .arr xs, .arr ys => Json.beqList xs ys
  | .obj xs, .obj ys => Json.beqObj xs ys
  | _, _ => false

/-- Elementwise `Json.beq` on lists. -/
def Json.beqList : List Json → List Json → Bool
  | [], [] => true
  | x :: xs, y :: ys => Json.beq x y && Json.beqList xs ys
  | _, _ => false

/-- Entrywise `Json.beq` on objects (key order is significant, as in the
insertion-ordered dicts this program builds). -/
def Json.beqObj : List (PyStr × Json) → List (PyStr × Json) → Bool
  | [], [] => true
  | (k, v) :: xs, (l, w) :: ys => k == l && Json.beq v w && Json.beqObj xs ys
  | _, _ => false

end

mutual

theorem Json.eq_of_beq : ∀ (a b : Json), Json.beq a b = true → a = b
  | .null, .null, _ => rfl
  | .bool a, .bool b, h => by
      simp only [Json.beq] at h; exact congrArg Json.bool (by simpa using h)
  | .int a, .int b, h => by
      simp only [Json.beq] at h; exact congrArg Json.int (by simpa using h)
  | .str a, .str b, h => by
      simp only [Json.beq] at h; exact congrArg Json.str (by simpa using h)
  | .arr xs, .arr ys, h => congrArg Json.arr (Json.eqList_of_beqList xs ys h)
  | .obj xs, .obj ys, h => congrArg Json.obj (Json.eqObj_of_beqObj xs ys h)
  | .null, .bool _, h => nomatch h
  | .null, .int _, h => nomatch h
  | .null, .str _, h => nomatch h
  | .null, .arr _, h => nomatch h
  | .null, .obj _, h => nomatch h
  | .bool _, .null, h => nomatch h
  | .bool _, .int _, h => nomatch h
  | .bool _, .str _, h => nomatch h
  | .bool _, .arr _, h => nomatch h
  | .bool _, .obj _, h => nomatch h
  | .int _, .null, h => nomatch h
  | .int _, .bool _, h => nomatch h
  | .int _, .str _, h => nomatch h
  | .int _, .arr _, h => nomatch h
  | .int _, .obj _, h => nomatch h
  | .str _, .null, h => nomatch h
  | .str _, .bool _, h => nomatch h
  | .str _, .int _, h => nomatch h
  | .str _, .arr _, h => nomatch h
  | .str _, .obj _, h => nomatch h
  | .arr _, .null, h => nomatch h
  | .arr _, .bool _, h => nomatch h
  | .arr _, .int _, h => nomatch h
  | .arr _, .str _, h => nomatch h
  | .arr _, .obj _, h => nomatch h
  | .obj _, .null, h => nomatch h
  | .obj _, .bool _, h => nomatch h
  | .obj _, .int _, h => nomatch h
  | .obj _, .str _, h => nomatch h
  | .obj _, .arr _, h => nomatch h

theorem Json.eqList_of_beqList : ∀ (xs ys : List Json), Json.beqList xs ys = true → xs = ys
  | [], [], _ => rfl
  | [], _ :: _, h => nomatch h
  | _ :: _, [], h => nomatch h
  | x :: xs, y :: ys, h => by
      simp only [Json.beqList, Bool.and_eq_true] at h
      rw [Json.eq_of_beq x y h.1, Json.eqList_of_beqList xs ys h.2]

theorem Json.eqObj_of_beqObj :
    ∀ (xs ys : List (PyStr × Json)), Json.beqObj xs ys = true → xs = ys
  | [], [], _ => rfl
  | [], _ :: _, h => nomatch h
  | _ :: _, [], h => nomatch h
  | (k, v) :: xs, (l, w) :: ys, h => by
      simp only [Json.beqObj, Bool.and_eq_true] at h
      obtain ⟨⟨h1, h2⟩, h3⟩ := h
      rw [show k = l from by simpa using h1, Json.eq_of_beq v w h2,
        Json.eqObj_of_beqObj xs ys h3]

end

mutual

theorem Json.beq_refl : ∀ (a : Json), Json.beq a a = true
  | .null => rfl
  | .bool b => by simp [Json.beq]
  | .int n => by simp [Json.beq]
  | .str s => by simp [Json.beq]
  | .arr xs => Json.beqList_refl xs
  | .obj xs => Json.beqObj_refl xs

theorem Json.beqList_refl : ∀ (xs : List Json), Json.beqList xs xs = true
  | [] => rfl
  | x :: xs => by simp [Json.beqList, Json.beq_refl x, Json.beqList_refl xs]

theorem Json.beqObj_refl : ∀ (xs : List (PyStr × Json)), Json.beqObj xs xs = true
  | [] => rfl
  | (k, v) :: xs => by simp [Json.beqObj, Json.beq_refl v, Json.beqObj_refl xs]

end

instance : DecidableEq Json := fun a b =>
  decidable_of_iff (Json.beq a b = true)
    ⟨Json.eq_of_beq a b, fun h => h ▸ Json.beq_refl a⟩

/-- First-match association-list lookup, the semantics of reading a Python
`dict` whose entries are listed in insertion order without duplicate keys. -/
def lookupKey : List (PyStr × Json) → PyStr → Option Json
  | [], _ => none
  | (k, v) :: rest, key => if k = key then some v else lookupKey rest key

/-- `StateManager.get` (src/utils/state.py:51): `self._state.get(key, default)`. -/
def StateManager.get (state : List (PyStr × Json)) (key : PyStr) (default : Json) :
    Json :=
  (lookupKey state key).getD default

/-- Python `dict` assignment `d[key] = v`: replace in place if the key is
present (keeping its position), otherwise append. -/
def StateManager.setKey : List (PyStr × Json) → PyStr → Json → List (PyStr × Json)
  | [], key, v => [(key, v)]
  | (k, w) :: rest, key, v =>
      if k = key then (k, v) :: rest else (k, w) :: StateManager.setKey rest key v

/-- `StateManager.has_changed` (src/utils/state.py:75): compares
`self.get(key)` — default `None` — with `new_value` using Python `!=`,
which on JSON-compatible data is structural (deep) inequality. -/
def StateManager.has_changed (state : List (PyStr × Json)) (key : PyStr)
    (new_value : Json) : Bool :=
  decide (StateManager.get state key Json.null ≠ new_value)

example : pyStr "ab" = [97, 98] := by decide

/-- Writing a key makes it readable: after `d[key] = v`, looking up `key`
finds `v` (first occurrence wins, matching Python dict semantics). -/
theorem lookupKey_setKey_self (state : List (PyStr × Json)) (key : PyStr) (v : Json) :
    lookupKey (StateManager.setKey state key v) key = some v := by
  induction state with
  | nil => simp [StateManager.setKey, lookupKey]
  | cons kv rest ih =>
      obtain ⟨k, w⟩ := kv
      by_cases h : k = key
      · simp [StateManager.setKey, lookupKey, h]
      · simp [StateManager.setKey, lookupKey, h, ih]

/-- C2 (amended): `has_changed(k, v)` is false iff the value read back for
`k` — the stored value, or `None` when `k` is absent — deep-equals `v`; a
key that was never set reports changed for every `v` other than `None`
(for `v = None` an absent key reports unchanged, see the counterexample). -/
theorem has_changed_false_iff_deep_equal (state : List (PyStr × Json)) (key : PyStr)
    (v : Json) :
    (StateManager.has_changed state key v = false ↔
      StateManager.get state key Json.null = v)
    ∧ (lookupKey state key = none → v ≠ Json.null →
        StateManager.has_changed state key v = true) := by
  constructor
  · simp [StateManager.has_changed]
  · intro hnone hv
    simp only [StateManager.has_changed, StateManager.get, hnone, Option.getD,
      decide_eq_true_eq, ne_eq]
    exact fun h => hv h.symm

/-- C2 counterexample: for a key that was never set and `v = None`,
`has_changed` returns `false`, not `true` as the claim states. -/
theorem has_changed_never_set_none_counterexample :
    lookupKey [] (pyStr "k") = none ∧
    StateManager.has_changed [] (pyStr "k") Json.null = false :=
  ⟨rfl, by decide⟩

/-- Witness for `has_changed_false_iff_deep_equal` at a concrete input. -/
theorem has_changed_false_iff_deep_equal_witness :
    StateManager.has_changed [] (pyStr "k") (Json.int 1) = true :=
  (has_changed_false_iff_deep_equal [] (pyStr "k") (Json.int 1)).2 rfl (by decide)

/-- C10 (amended): an absent key reads back as the supplied default, is
reported unchanged against `None`, and is indistinguishable from a key
whose stored value is `None` as far as `has_changed` is concerned; `get`
with a non-`None` default does distinguish the two (see counterexample). -/
theorem stateManager_absent_key_default (state : List (PyStr × Json)) (key : PyStr)
    (default : Json) (h : lookupKey state key = none) :
    StateManager.get state key default = default
    ∧ StateManager.has_changed state key Json.null = false
    ∧ ∀ v, StateManager.has_changed state key v =
        StateManager.has_changed (StateManager.setKey state key Json.null) key v := by
  refine ⟨by simp [StateManager.get, h], ?_, ?_⟩
  · simp [StateManager.has_changed, StateManager.get, h]
  · intro v
    simp [StateManager.has_changed, StateManager.get, h, lookupKey_setKey_self]

/-- C10 counterexample: at the public interface, `get` with a non-`None`
default distinguishes an absent key (returns the default) from a key whose
stored value is `None` (returns `None`), so the two stores are not
indistinguishable. -/
theorem get_default_distinguishes_counterexample :
    StateManager.get [] (pyStr "k") (Json.int 7) = Json.int 7
    ∧ StateManager.get [(pyStr "k", Json.null)] (pyStr "k") (Json.int 7) = Json.null
    ∧ Json.int 7 ≠ Json.null := by
  refine ⟨rfl, by decide, by decide⟩

/-- Witness for `stateManager_absent_key_default` at a concrete input. -/
theorem stateManager_absent_key_default_witness :
    StateManager.get [] (pyStr "k") (Json.int 7) = Json.int 7 ∧
    StateManager.has_changed [] (pyStr "k") Json.null = false :=
  ⟨(stateManager_absent_key_default [] (pyStr "k") (Json.int 7) rfl).1,
   (stateManager_absent_key_default [] (pyStr "k") (Json.int 7) rfl).2.1⟩

/-- Outcome of one underlying HTTP attempt in `APIClient.get`
(src/utils/api_client.py:68): a successful JSON response, or one of the
exception classes the `try` block distinguishes. -/
inductive AttemptOutcome where
  | success (body : Json)
  | timeout
  | connectionError
  | httpError (status : Nat)
  | jsonDecodeError
  | unexpectedError

/-- Transient failures, the two except-arms that fall through to the next
loop iteration (timeout, connection error). -/
def AttemptOutcome.transient : AttemptOutcome → Bool
  | .timeout => true
  | .connectionError => true
  | _ => false

/-- Non-transient failures, the except-arms that `return None` at once
(HTTP error status, malformed JSON body, any other unexpected error). -/
def AttemptOutcome.permanentFailure : AttemptOutcome → Bool
  | .httpError _ => true
  | .jsonDecodeError => true
  | .unexpectedError => true
  | _ => false

/-- Observable result of a whole `APIClient.get` call: the returned value,
the list of back-off sleeps performed (in order, in seconds), and the
number of HTTP attempts made. -/
structure GetResult where
  ret : Option Json
  sleeps : List ℚ
  attempts : Nat
deriving DecidableEq

/-- The retry loop of `APIClient.get` (src/utils/api_client.py:60):
`for attempt in range(max_retries + 1)`, sleeping
`backoff_base * 2 ^ (attempt - 1)` before every attempt but the first,
returning the body on success, `None` at once on a non-transient failure,
and falling through to the next iteration on a transient one; `remaining`
counts the loop iterations left. -/
def APIClient.getLoop (backoff_base : ℚ) (outcome : Nat → AttemptOutcome) :
    (attempt : Nat) → (remaining : Nat) → GetResult
  | _, 0 => ⟨none, [], 0⟩
  | attempt, remaining + 1 =>
      let sl : List ℚ := if attempt = 0 then [] else [backoff_base * 2 ^ (attempt - 1)]
      match outcome attempt with
      | .success body => ⟨some body, sl, 1⟩
      | .timeout =>
          let r := APIClient.getLoop backoff_base outcome (attempt + 1) remaining
          ⟨r.ret, sl ++ r.sleeps, r.attempts + 1⟩
      | .connectionError =>
          let r := APIClient.getLoop backoff_base outcome (attempt + 1) remaining
          ⟨r.ret, sl ++ r.sleeps, r.attempts + 1⟩
      | .httpError _ => ⟨none, sl, 1⟩
      | .jsonDecodeError => ⟨none, sl, 1⟩
      | .unexpectedError => ⟨none, sl, 1⟩

/-- `APIClient.get` with configuration `max_retries` and `backoff_base`,
run against the sequence of attempt outcomes `outcome`. -/
def APIClient.get (max_retries : Nat) (backoff_base : ℚ)
    (outcome : Nat → AttemptOutcome) : GetResult :=
  APIClient.getLoop backoff_base outcome 0 (max_retries + 1)

/-- When every attempt from `attempt ≥ 1` on fails transiently, the loop
runs out its `remaining` iterations, sleeping before each one. -/
theorem getLoop_all_transient (b : ℚ) (o : Nat → AttemptOutcome) :
    ∀ (remaining attempt : Nat), 1 ≤ attempt →
    (∀ k, k < remaining → (o (attempt + k)).transient = true) →
    APIClient.getLoop b o attempt remaining =
      ⟨none, (List.range remaining).map (fun i => b * 2 ^ (attempt - 1 + i)), remaining⟩ := by
  intro remaining
  induction remaining with
  | zero => intro attempt _ _; rfl
  | succ m ih =>
      intro attempt h1 htr
      have h0 : (o attempt).transient = true := by
        simpa using htr 0 (Nat.succ_pos m)
      have hne : ¬attempt = 0 := by omega
      have hrec := ih (attempt + 1) (by omega)
        (fun k hk => by
          have e : attempt + 1 + k = attempt + (k + 1) := by omega
          rw [e]; exact htr (k + 1) (by omega))
      cases ho : o attempt <;> simp [AttemptOutcome.transient, ho] at h0 <;>
        simp only [APIClient.getLoop, ho, hrec, hne, if_false] <;>
        · refine congrArg (GetResult.mk none · (m + 1)) ?_
          have : (List.range (m + 1)).map (fun i => b * 2 ^ (attempt - 1 + i)) =
              b * 2 ^ (attempt - 1) ::
                (List.range m).map (fun i => b * 2 ^ (attempt + i)) := by
            rw [List.range_succ_eq_map, List.map_cons, List.map_map]
            refine congrArg₂ _ (by ring_nf) ?_
            refine List.map_congr_left fun i _ => ?_
            have : attempt - 1 + (i + 1) = attempt + i := by omega
            simp [Function.comp, this]
          simp [this]

/-- C1: with `max_retries = n` and `backoff_base = b`, a `get` whose every
attempt fails transiently performs exactly `n + 1` attempts, sleeps exactly
`n` times — the `k`-th sleep (1-indexed) lasting `b * 2 ^ (k - 1)` seconds —
and returns `None`. -/
theorem apiClient_get_transient_exhausts_retries (n : Nat) (b : ℚ)
    (o : Nat → AttemptOutcome) (h : ∀ k, k ≤ n → (o k).transient = true) :
    APIClient.get n b o =
      ⟨none, (List.range n).map (fun k => b * 2 ^ k), n + 1⟩ := by
  have h0 : (o 0).transient = true := h 0 (Nat.zero_le n)
  have hrest := getLoop_all_transient b o n 1 le_rfl
    (fun k hk => h (1 + k) (by omega))
  unfold APIClient.get
  cases ho : o 0 <;> simp [AttemptOutcome.transient, ho] at h0 <;>
    · simp only [APIClient.getLoop, ho, hrest, if_pos rfl]
      simp

/-- Witness for `apiClient_get_transient_exhausts_retries`: defaults
`n = 3`, `b = 1` give 4 attempts, sleeps 1s, 2s, 4s, and no result. -/
theorem apiClient_get_transient_exhausts_retries_witness :
    APIClient.get 3 1 (fun _ => .timeout) = ⟨none, [1, 2, 4], 4⟩ := by
  rw [apiClient_get_transient_exhausts_retries 3 1 (fun _ => .timeout)
    (fun k _ => rfl)]
  norm_num [List.range_succ]

/-- C5: a first attempt failing non-transiently (HTTP error status,
malformed JSON, or any other unexpected error) makes `get` return `None`
after exactly 1 attempt and no sleep, whatever the retry configuration. -/
theorem apiClient_get_permanent_single_attempt (n : Nat) (b : ℚ)
    (o : Nat → AttemptOutcome) (h : (o 0).permanentFailure = true) :
    APIClient.get n b o = ⟨none, [], 1⟩ := by
  unfold APIClient.get
  cases ho : o 0 <;> simp [AttemptOutcome.permanentFailure, ho] at h <;>
    simp [APIClient.getLoop, ho]

/-- Witness for `apiClient_get_permanent_single_attempt` at a concrete
input: an HTTP 500 on the first attempt. -/
theorem apiClient_get_permanent_single_attempt_witness :
    APIClient.get 3 1 (fun _ => .httpError 500) = ⟨none, [], 1⟩ :=
  apiClient_get_permanent_single_attempt 3 1 (fun _ => .httpError 500) rfl

/-- Civil date `(year, month, day)` of a day count since 1970-01-01
(proleptic Gregorian, Howard Hinnant's `civil_from_days`). -/
def civilFromDays (z : Nat) : Nat × Nat × Nat :=
  let z' := z + 719468
  let era := z' / 146097
  let doe := z' % 146097
  let yoe := (doe - doe / 1460 + doe / 36524 - doe / 146096) / 365
  let y := yoe + era * 400
  let doy := doe - (365 * yoe + yoe / 4 - yoe / 100)
  let mp := (5 * doy + 2) / 153
  let d := doy - (153 * mp + 2) / 5 + 1
  let m := if mp < 10 then mp + 3 else mp - 9
  (if m ≤ 2 then y + 1 else y, m, d)

/-- Day count since 1970-01-01 of a civil date (inverse of
`civilFromDays` on dates from 1970 on). -/
def daysFromCivil (y m d : Nat) : Nat :=
  let y' := if m ≤ 2 then y - 1 else y
  let era := y' / 400
  let yoe := y' % 400
  let mp := if 2 < m then m - 3 else m + 9
  let doy := (153 * mp + 2) / 5 + d - 1
  let doe := yoe * 365 + yoe / 4 - yoe / 100 + doy
  era * 146097 + doe - 719468

example : civilFromDays 0 = (1970, 1, 1) := by decide
example : civilFromDays (daysFromCivil 2024 2 29) = (2024, 2, 29) := by decide

/-- Big-endian decimal digits (code points) of `n`, by fuel-bounded
division; `fuel > n` always suffices since `n / 10 < n` for `n ≥ 10`. -/
def natToDecGo : Nat → Nat → PyStr
  | 0, _ => []
  | fuel + 1, n =>
      if n < 10 then [48 + n] else natToDecGo fuel (n / 10) ++ [48 + n % 10]

/-- Decimal digits (code points) of a natural number, as Python `str(n)`. -/
def natToDec (n : Nat) : PyStr := natToDecGo (n + 1) n

/-- Zero-padded decimal rendering of width `w`, as Python `%02d`/`%04d`. -/
def padZeros (w : Nat) (n : Nat) : PyStr :=
  let ds := natToDec n
  List.replicate (w - ds.length) 48 ++ ds

/-- `datetime.strftime("%Y-%m-%d")` on a timestamp in minutes: the ISO
`YYYY-MM-DD` rendering of its calendar date. -/
def strftimeYMD (t : Nat) : PyStr :=
  let c := civilFromDays (t / 1440)
  padZeros 4 c.1 ++ [45] ++ padZeros 2 c.2.1 ++ [45] ++ padZeros 2 c.2.2

example : strftimeYMD (1440 * 5) = pyStr "1970-01-06" := by decide

/-- Value of a decimal digit code point, `none` for non-digits. -/
def digitVal : Nat → Option Nat :=
  fun c => if 48 ≤ c ∧ c ≤ 57 then some (c - 48) else none

/-- Python `str.replace("Z", "+00:00")`: every occurrence replaced. -/
def pyReplaceZ (s : PyStr) : PyStr :=
  s.flatMap (fun c => if c = 90 then pyStr "+00:00" else [c])

/-- Model of stdlib `datetime.fromisoformat` restricted to the shapes this
program's data takes: `YYYY-MM-DD`, optionally followed by `T` or a space
and `HH:MM` (seconds and UTC offsets beyond the minute are ignored).
Returns minutes since the epoch; `none` when the text does not parse —
in particular on the empty string, the default for a missing field. -/
def fromisoformat (s : PyStr) : Option Nat :=
  match s with
  | c1 :: c2 :: c3 :: c4 :: s1 :: c5 :: c6 :: s2 :: c7 :: c8 :: rest =>
      if s1 = 45 ∧ s2 = 45 then
        match digitVal c1, digitVal c2, digitVal c3, digitVal c4,
            digitVal c5, digitVal c6, digitVal c7, digitVal c8 with
        | some a, some b, some c, some d, some e, some f, some g, some h =>
            let y := ((a * 10 + b) * 10 + c) * 10 + d
            let mo := e * 10 + f
            let da := g * 10 + h
            if 1 ≤ mo ∧ mo ≤ 12 ∧ 1 ≤ da ∧ da ≤ 31 then
              match rest with
              | [] => some (daysFromCivil y mo da * 1440)
              | sep :: h1 :: h2 :: co :: m1 :: m2 :: _ =>
                  if (sep = 84 ∨ sep = 32) ∧ co = 58 then
                    match digitVal h1, digitVal h2, digitVal m1, digitVal m2 with
                    | some p, some q, some r, some t =>
                        some (daysFromCivil y mo da * 1440 + (p * 10 + q) * 60
                          + (r * 10 + t))
                    | _, _, _, _ => none
                  else none
              | _ => none
            else none
        | _, _, _, _, _, _, _, _ => none
      else none
  | _ => none

example : fromisoformat (pyStr "2024-01-01") = some (19723 * 1440) := by decide

example : fromisoformat (pyReplaceZ (pyStr "2024-01-01T07:30:00Z")) =
    some (19723 * 1440 + 450) := by decide

example : fromisoformat (pyStr "") = none := by decide

/-- Python `data.get(key, default)` on a JSON value: a lookup when `data`
is a dict, an `AttributeError` otherwise (non-dicts have no `.get`). -/
def Json.pyGet (data : Json) (key : PyStr) (default : Json) : Except PyStr Json :=
  match data with
  | .obj m => .ok ((lookupKey m key).getD default)
  | _ => .error (pyStr "AttributeError")

/-- Python iteration over a JSON value: a list yields its elements, a
string its one-character strings, a dict its keys; anything else raises
`TypeError`. -/
def Json.pyIter : Json → Except PyStr (List Json)
  | .arr items => .ok items
  | .str s => .ok (s.map (fun c => .str [c]))
  | .obj m => .ok (m.map (fun kv => .str kv.1))
  | _ => .error (pyStr "TypeError")

/-- `Address` (src/core/models.py:12). Python dataclasses do not enforce
their field annotations, so every field holds whatever JSON value the
payload supplied; the Danish field names `sidedør` and `længdegrad` are
transliterated to `sidedoer`/`laengdegrad` (Lean identifiers cannot carry
those letters). The float default `0.0` is modelled as the integer 0. -/
structure Address where
  navn : Json
  vejnavn : Json
  husnummer : Json
  etage : Json
  sidedoer : Json
  postdistrikt : Json
  postnummer : Json
  kvhxcode : Json
  kommunenummer : Json
  vejkode : Json
  breddegrad : Json
  laengdegrad : Json
deriving DecidableEq

/-- `Address.from_dict` (src/core/models.py:29): `data.get` per field with
the annotated defaults (`""`, `None`, `0`, `0.0`). -/
def Address.from_dict (data : Json) : Except PyStr Address := do
  let navn ← data.pyGet (pyStr "navn") (.str [])
  let vejnavn ← data.pyGet (pyStr "vejnavn") (.str [])
  let husnummer ← data.pyGet (pyStr "husnummer") (.str [])
  let etage ← data.pyGet (pyStr "etage") .null
  let sidedoer ← data.pyGet (pyStr "sidedør") .null
  let postdistrikt ← data.pyGet (pyStr "postdistrikt") (.str [])
  let postnummer ← data.pyGet (pyStr "postnummer") (.str [])
  let kvhxcode ← data.pyGet (pyStr "kvhxcode") (.str [])
  let kommunenummer ← data.pyGet (pyStr "kommunenummer") (.int 0)
  let vejkode ← data.pyGet (pyStr "vejkode") (.int 0)
  let breddegrad ← data.pyGet (pyStr "breddegrad") (.int 0)
  let laengdegrad ← data.pyGet (pyStr "laengdegrad") (.int 0)
  return ⟨navn, vejnavn, husnummer, etage, sidedoer, postdistrikt, postnummer,
    kvhxcode, kommunenummer, vejkode, breddegrad, laengdegrad⟩

/-- The `Address` produced from an empty dict: every field its default. -/
def Address.defaults : Address :=
  ⟨.str [], .str [], .str [], .null, .null, .str [], .str [], .str [],
    .int 0, .int 0, .int 0, .int 0⟩

/-- The `try: fromisoformat(s.replace("Z", "+00:00")) except: now()`
pattern of `models.py`: a date field that is not a string or does not
parse falls back to the current timestamp. -/
def parseDatoField (v : Json) (now : Nat) : Nat :=
  match v with
  | .str s => (fromisoformat (pyReplaceZ s)).getD now
  | _ => now

/-- `Standplads` (src/core/models.py:48), the collection point. -/
structure Standplads where
  nummer : Json
  navn : Json
  beskrivelse : Json
  adresse : Address
  laengdegrad : Json
  breddegrad : Json
  sidstaendret : Nat
  beholder : Json
deriving DecidableEq

/-- `Standplads.from_dict` (src/core/models.py:61). -/
def Standplads.from_dict (data : Json) (now : Nat) : Except PyStr Standplads := do
  let sidst ← data.pyGet (pyStr "sidstændret") (.str [])
  let nummer ← data.pyGet (pyStr "nummer") (.str [])
  let navn ← data.pyGet (pyStr "navn") (.str [])
  let beskrivelse ← data.pyGet (pyStr "beskrivelse") .null
  let adresseData ← data.pyGet (pyStr "adresse") (.obj [])
  let adresse ← Address.from_dict adresseData
  let laengdegrad ← data.pyGet (pyStr "længdegrad") (.int 0)
  let breddegrad ← data.pyGet (pyStr "breddegrad") (.int 0)
  let beholder ← data.pyGet (pyStr "beholder") .null
  return ⟨nummer, navn, beskrivelse, adresse, laengdegrad, breddegrad,
    parseDatoField sidst now, beholder⟩

/-- The `Standplads` produced from an empty dict: defaults everywhere and
the current timestamp for the unparsable last-modified field. -/
def Standplads.defaults (now : Nat) : Standplads :=
  ⟨.str [], .str [], .null, Address.defaults, .int 0, .int 0, now, .null⟩

/-- `PlannedCollection` (src/core/models.py:83): a pickup timestamp (in
minutes) and the waste-fraction value as received. -/
structure PlannedCollection where
  dato : Nat
  fraktioner : Json
deriving DecidableEq

/-- `PlannedCollection.from_dict` (src/core/models.py:90). -/
def PlannedCollection.from_dict (data : Json) (now : Nat) :
    Except PyStr PlannedCollection := do
  let datoV ← data.pyGet (pyStr "dato") (.str [])
  let frak ← data.pyGet (pyStr "fraktioner") (.arr [])
  return ⟨parseDatoField datoV now, frak⟩

/-- `PlannedCollection.get_date_str` (src/core/models.py:102): `"i dag"`
for the current calendar day, `"i morgen"` for the next one, else
`strftime("%Y-%m-%d")`. -/
def PlannedCollection.get_date_str (now : Nat) (c : PlannedCollection) : PyStr :=
  let today := now / 1440
  let collection_date := c.dato / 1440
  if collection_date = today then pyStr "i dag"
  else if collection_date = today + 1 then pyStr "i morgen"
  else strftimeYMD c.dato

/-- `PlannedCollection.get_fractions_str` (src/core/models.py:114):
`", ".join(self.fraktioner)`, a `TypeError` unless the value iterates to
strings. -/
def PlannedCollection.get_fractions_str (c : PlannedCollection) :
    Except PyStr PyStr :=
  match c.fraktioner with
  | .str s => .ok (List.intercalate (pyStr ", ") (s.map (fun ch => [ch])))
  | .arr items =>
      match items.mapM (fun v => match v with | Json.str s => some s | _ => none) with
      | some parts => .ok (List.intercalate (pyStr ", ") parts)
      | none => .error (pyStr "TypeError")
  | .obj m => .ok (List.intercalate (pyStr ", ") (m.map (fun kv => kv.1)))
  | _ => .error (pyStr "TypeError")

/-- `WasteSchedule` (src/core/models.py:119). -/
structure WasteSchedule where
  standplads : Standplads
  planlagtetoemninger : List PlannedCollection
deriving DecidableEq

/-- `WasteSchedule.from_dict` (src/core/models.py:127), with Python's
exception propagation written as explicit `match`es on each step. -/
def WasteSchedule.from_dict (data : Json) (now : Nat) :
    Except PyStr WasteSchedule :=
  match data.pyGet (pyStr "standplads") (.obj []) with
  | .error e => .error e
  | .ok spData =>
      match Standplads.from_dict spData now with
      | .error e => .error e
      | .ok standplads =>
          match data.pyGet (pyStr "planlagtetømninger") (.arr []) with
          | .error e => .error e
          | .ok planlagt =>
              match planlagt.pyIter with
              | .error e => .error e
              | .ok items =>
                  match items.mapM (fun p => PlannedCollection.from_dict p now) with
                  | .error e => .error e
                  | .ok cols => .ok ⟨standplads, cols⟩

/-- One comparison step of Python `min(..., key=lambda c: c.dato)`: keep
the earlier element unless the new one is strictly earlier. -/
def minDatoStep (best x : PlannedCollection) : PlannedCollection :=
  if x.dato < best.dato then x else best

/-- Python `min(upcoming, key=lambda c: c.dato)`: the first element whose
`dato` is minimal (strict-less keeps the earlier element on ties). -/
def pyMinByDato : List PlannedCollection → Option PlannedCollection
  | [] => none
  | c :: cs => some (cs.foldl minDatoStep c)

/-- `WasteSchedule.get_next_collection` (src/core/models.py:136): filter
to entries whose calendar date (`today := now / 1440`) is today or later,
then take the earliest by timestamp. -/
def WasteSchedule.get_next_collection (now : Nat) (s : WasteSchedule) :
    Option PlannedCollection :=
  pyMinByDato (s.planlagtetoemninger.filter (fun c => now / 1440 ≤ c.dato / 1440))

/-- C6 counterexample: for a collection dated on the current calendar day
the label is the Danish `"i dag"`, not the English `"today"` the claim
names. -/
theorem get_date_str_today_counterexample :
    PlannedCollection.get_date_str 0 ⟨0, Json.arr []⟩ = pyStr "i dag"
    ∧ pyStr "i dag" ≠ pyStr "today" :=
  ⟨by decide, by decide⟩

/-- C6 (amended): `get_date_str` returns the Danish label `"i dag"` when
the collection falls on the current calendar day, `"i morgen"` when it
falls on the next one, and otherwise the ISO `YYYY-MM-DD` rendering of
its civil date. -/
theorem get_date_str_spec (now : Nat) (c : PlannedCollection) :
    (c.dato / 1440 = now / 1440 →
      PlannedCollection.get_date_str now c = pyStr "i dag")
    ∧ (c.dato / 1440 = now / 1440 + 1 →
      PlannedCollection.get_date_str now c = pyStr "i morgen")
    ∧ (c.dato / 1440 ≠ now / 1440 → c.dato / 1440 ≠ now / 1440 + 1 →
      ∃ y mo d, civilFromDays (c.dato / 1440) = (y, mo, d) ∧
        PlannedCollection.get_date_str now c =
          padZeros 4 y ++ [45] ++ padZeros 2 mo ++ [45] ++ padZeros 2 d) := by
  refine ⟨?_, ?_, ?_⟩
  · intro h1
    simp [PlannedCollection.get_date_str, h1]
  · intro h1
    have hne : ¬ c.dato / 1440 = now / 1440 := by omega
    simp [PlannedCollection.get_date_str, h1, hne]
  · intro h1 h2
    refine ⟨(civilFromDays (c.dato / 1440)).1, (civilFromDays (c.dato / 1440)).2.1,
      (civilFromDays (c.dato / 1440)).2.2, rfl, ?_⟩
    show (if c.dato / 1440 = now / 1440 then pyStr "i dag"
      else if c.dato / 1440 = now / 1440 + 1 then pyStr "i morgen"
      else strftimeYMD c.dato) = _
    rw [if_neg h1, if_neg h2]
    rfl

/-- Witness for `get_date_str_spec`: a collection one day ahead of `now`
is labelled `"i morgen"`. -/
theorem get_date_str_spec_witness :
    PlannedCollection.get_date_str (1440 * 3) ⟨1440 * 4 + 60, Json.arr []⟩ =
      pyStr "i morgen" :=
  (get_date_str_spec (1440 * 3) ⟨1440 * 4 + 60, Json.arr []⟩).2.1 (by decide)

/-- The fold underlying `pyMinByDato` returns its seed or a list element. -/
theorem foldlMinDato_mem (cs : List PlannedCollection) (c : PlannedCollection) :
    cs.foldl minDatoStep c = c ∨ cs.foldl minDatoStep c ∈ cs := by
  induction cs generalizing c with
  | nil => left; rfl
  | cons x xs ih =>
      simp only [List.foldl_cons]
      rcases ih (minDatoStep c x) with h | h
      · rw [h]
        by_cases hx : x.dato < c.dato
        · right; simp [minDatoStep, hx]
        · left; simp [minDatoStep, hx]
      · right; exact List.mem_cons_of_mem _ h

/-- The fold underlying `pyMinByDato` minimises `dato` over seed and list. -/
theorem foldlMinDato_le (cs : List PlannedCollection) (c : PlannedCollection) :
    (cs.foldl minDatoStep c).dato ≤ c.dato
    ∧ ∀ x ∈ cs, (cs.foldl minDatoStep c).dato ≤ x.dato := by
  induction cs generalizing c with
  | nil => exact ⟨le_rfl, by simp⟩
  | cons x xs ih =>
      obtain ⟨h1, h2⟩ := ih (minDatoStep c x)
      have hseed : (minDatoStep c x).dato ≤ c.dato ∧ (minDatoStep c x).dato ≤ x.dato := by
        unfold minDatoStep
        by_cases hx : x.dato < c.dato <;> simp [hx] <;> omega
      refine ⟨le_trans h1 hseed.1, ?_⟩
      intro y hy
      rcases List.mem_cons.mp hy with rfl | hy
      · exact le_trans h1 hseed.2
      · exact h2 y hy

/-- `pyMinByDato` (hence Python `min`) yields nothing iff the list is empty. -/
theorem pyMinByDato_eq_none (l : List PlannedCollection) :
    pyMinByDato l = none ↔ l = [] := by
  cases l <;> simp [pyMinByDato, minDatoStep]

/-- C3 counterexample: a collection earlier on the current calendar day —
strictly before the current moment — is still selected, where the claim
(filtering by the current moment) would return none. -/
theorem get_next_collection_past_today_counterexample :
    WasteSchedule.get_next_collection (1440 * 100 + 720)
      ⟨Standplads.defaults 0, [⟨1440 * 100, Json.arr []⟩]⟩ =
        some ⟨1440 * 100, Json.arr []⟩
    ∧ (1440 * 100 : Nat) < 1440 * 100 + 720 :=
  ⟨by decide, by decide⟩

/-- C3 (amended): `get_next_collection` returns the first entry of minimal
timestamp among those whose calendar date is on-or-after the current
calendar day, and returns none exactly when the list is empty or every
entry falls on an earlier calendar day (entries earlier on the current
day, though before the current moment, are still eligible). -/
theorem get_next_collection_spec (now : Nat) (s : WasteSchedule) :
    (WasteSchedule.get_next_collection now s = none ↔
      ∀ c ∈ s.planlagtetoemninger, c.dato / 1440 < now / 1440)
    ∧ ∀ c, WasteSchedule.get_next_collection now s = some c →
        c ∈ s.planlagtetoemninger ∧ now / 1440 ≤ c.dato / 1440
        ∧ ∀ x ∈ s.planlagtetoemninger, now / 1440 ≤ x.dato / 1440 →
            c.dato ≤ x.dato := by
  unfold WasteSchedule.get_next_collection
  constructor
  · rw [pyMinByDato_eq_none, List.filter_eq_nil_iff]
    constructor
    · intro h c hc
      have := h c hc
      simp only [decide_eq_true_eq] at this
      omega
    · intro h c hc
      simp only [decide_eq_true_eq]
      have := h c hc
      omega
  · intro c hc
    rcases hl : s.planlagtetoemninger.filter
        (fun c => now / 1440 ≤ c.dato / 1440) with _ | ⟨c0, cs⟩
    · rw [hl] at hc; exact absurd hc (by simp [pyMinByDato])
    · rw [hl] at hc
      simp only [pyMinByDato, Option.some.injEq] at hc
      have hmemf : c ∈ c0 :: cs := by
        rcases foldlMinDato_mem cs c0 with h | h
        · rw [← hc, h]; exact List.mem_cons_self c0 cs
        · rw [← hc]; exact List.mem_cons_of_mem _ h
      have hmem : c ∈ s.planlagtetoemninger ∧ now / 1440 ≤ c.dato / 1440 := by
        have := List.mem_filter.mp (hl ▸ hmemf)
        simpa using this
      refine ⟨hmem.1, hmem.2, ?_⟩
      intro x hx hxday
      have hxf : x ∈ c0 :: cs := by
        rw [← hl]
        exact List.mem_filter.mpr ⟨hx, by simpa using hxday⟩
      obtain ⟨h1, h2⟩ := foldlMinDato_le cs c0
      rcases List.mem_cons.mp hxf with rfl | hxf
      · rw [← hc]; exact h1
      · rw [← hc]; exact h2 x hxf

/-- Witness for `get_next_collection_spec`: of entries at +20, +30 and
+60 days from `now`, the +20-day entry is selected, and its calendar day
is not before today's. -/
theorem get_next_collection_spec_witness :
    WasteSchedule.get_next_collection (1440 * 100)
      ⟨Standplads.defaults 0, [⟨1440 * 130, Json.arr []⟩, ⟨1440 * 120, Json.arr []⟩,
        ⟨1440 * 160, Json.arr []⟩]⟩ = some ⟨1440 * 120, Json.arr []⟩
    ∧ (1440 * 100 : Nat) / 1440 ≤ 1440 * 120 / 1440 :=
  ⟨by decide,
   ((get_next_collection_spec (1440 * 100)
      ⟨Standplads.defaults 0, [⟨1440 * 130, Json.arr []⟩, ⟨1440 * 120, Json.arr []⟩,
        ⟨1440 * 160, Json.arr []⟩]⟩).2 ⟨1440 * 120, Json.arr []⟩ (by decide)).2.1⟩

/-- `PlannedCollection.from_dict` on a dict never raises: missing fields
fall back to the empty string (hence `now` for the date) and `[]`. -/
theorem plannedCollection_from_dict_obj (d : List (PyStr × Json)) (now : Nat) :
    PlannedCollection.from_dict (Json.obj d) now =
      .ok ⟨parseDatoField ((lookupKey d (pyStr "dato")).getD (.str [])) now,
        (lookupKey d (pyStr "fraktioner")).getD (.arr [])⟩ := rfl

/-- Mapping `PlannedCollection.from_dict` over dict elements succeeds and
keeps the element count. -/
theorem mapM_from_dict_objs (now : Nat) : ∀ (items : List Json),
    (∀ e ∈ items, ∃ d, e = Json.obj d) →
    ∃ cols, items.mapM (fun p => PlannedCollection.from_dict p now) = .ok cols
      ∧ cols.length = items.length := by
  intro items
  induction items with
  | nil => exact fun _ => ⟨[], rfl, rfl⟩
  | cons e rest ih =>
      intro h
      obtain ⟨d, rfl⟩ := h e (List.mem_cons_self e rest)
      obtain ⟨cols, hc, hlen⟩ := ih (fun x hx => h x (List.mem_cons_of_mem _ hx))
      refine ⟨⟨parseDatoField ((lookupKey d (pyStr "dato")).getD (.str [])) now,
        (lookupKey d (pyStr "fraktioner")).getD (.arr [])⟩ :: cols, ?_, by simp [hlen]⟩
      rw [List.mapM_cons, plannedCollection_from_dict_obj, hc]
      rfl

/-- C8 counterexample: a dictionary whose `standplads` value is not a
dict makes the parser raise (`AttributeError` on `.get`), so the parser
is not total on all input dictionaries. -/
theorem schedule_parser_type_mismatch_counterexample :
    WasteSchedule.from_dict (Json.obj [(pyStr "standplads", Json.int 5)]) 0
      = .error (pyStr "AttributeError") := rfl

/-- C8 (amended): on the empty dictionary the parser raises nothing and
yields all defaults (empty strings, `None`s, zeroes, the current
timestamp, an empty collection list); and on any dictionary whose
`standplads` parses and whose `planlagtetømninger` is an array of
dictionaries, parsing succeeds with every array element counted in the
returned list. -/
theorem schedule_parser_defaults (now : Nat) :
    WasteSchedule.from_dict (Json.obj []) now = .ok ⟨Standplads.defaults now, []⟩
    ∧ ∀ (m : List (PyStr × Json)) (entries : List Json) (sp : Standplads),
        Standplads.from_dict ((lookupKey m (pyStr "standplads")).getD (.obj [])) now
          = .ok sp →
        lookupKey m (pyStr "planlagtetømninger") = some (.arr entries) →
        (∀ e ∈ entries, ∃ d, e = Json.obj d) →
        ∃ cols, WasteSchedule.from_dict (.obj m) now = .ok ⟨sp, cols⟩
          ∧ cols.length = entries.length := by
  constructor
  · rfl
  · intro m entries sp hsp hlk hobjs
    obtain ⟨cols, hc, hl⟩ := mapM_from_dict_objs now entries hobjs
    refine ⟨cols, ?_, hl⟩
    unfold WasteSchedule.from_dict
    simp only [Json.pyGet, hsp, hlk, Option.getD_some, Json.pyIter, hc]

/-- Witness for `schedule_parser_defaults`: a schedule dict with one empty
planned-collection dict parses to defaults with one (default) entry. -/
theorem schedule_parser_defaults_witness :
    ∃ cols, WasteSchedule.from_dict
        (Json.obj [(pyStr "planlagtetømninger", Json.arr [Json.obj []])]) 0
      = .ok ⟨Standplads.defaults 0, cols⟩ ∧ cols.length = 1 :=
  (schedule_parser_defaults 0).2 [(pyStr "planlagtetømninger", Json.arr [Json.obj []])]
    [Json.obj []] (Standplads.defaults 0) rfl rfl
    (fun e he => ⟨[], by simpa using he⟩)

/-- The attribute names the `APIClient` class body defines
(src/utils/api_client.py:13): its methods, and nothing else. -/
def APIClient.methodNames : List PyStr :=
  [pyStr "__init__", pyStr "get", pyStr "post", pyStr "set_header",
   pyStr "set_auth", pyStr "_build_url", pyStr "_log_info", pyStr "_log_error",
   pyStr "close"]

/-- `WasteRepository.set_bearer_token` (src/core/waste_repository.py:116)
calls `self.client.set_bearer_token(token)`; Python resolves the method
name on the `APIClient` class at call time and raises `AttributeError`
when it is not defined. -/
def WasteRepository.set_bearer_token (_token : PyStr) : Except PyStr Unit :=
  if (pyStr "set_bearer_token") ∈ APIClient.methodNames then .ok ()
  else .error (pyStr "AttributeError: APIClient has no attribute set_bearer_token")

/-- C7: `APIClient` defines no `set_bearer_token`, so
`WasteRepository.set_bearer_token` raises `AttributeError` for every token
instead of configuring an `Authorization: Bearer` header. -/
theorem set_bearer_token_attribute_error :
    pyStr "set_bearer_token" ∉ APIClient.methodNames
    ∧ ∀ token, WasteRepository.set_bearer_token token =
        .error (pyStr "AttributeError: APIClient has no attribute set_bearer_token") :=
  ⟨by decide, fun _ => rfl⟩

/-- Observable actions of one orchestrator cycle, in order: a call to the
rendering collaborator (`layouts.title_and_date`), the display calls
(`set_border`, `show`), and a state persistence (`state.set`). -/
inductive DisplayEvent where
  | renderImage (title : PyStr) (date : Json)
  | setBorder
  | showImage
  | persist (key : PyStr) (value : Json)
deriving DecidableEq

/-- `InkyPiApp.show_title_and_date` (src/core/app.py:52): render the
layout, set the border, show the image. -/
def InkyPiApp.show_title_and_date (title : PyStr) (date : Json) :
    List DisplayEvent :=
  [.renderImage title date, .setBorder, .showImage]

/-- `InkyPiApp._handle_error_state` (src/core/app.py:156): display and
persist the error snapshot only when it differs from the stored one. -/
def InkyPiApp.handle_error_state (state : List (PyStr × Json))
    (error_state : List (PyStr × Json)) (title : PyStr) (currentDate : PyStr) :
    List DisplayEvent × List (PyStr × Json) :=
  if StateManager.has_changed state (pyStr "last_display") (.obj error_state) then
    (InkyPiApp.show_title_and_date title
        ((lookupKey error_state (pyStr "date")).getD (.str currentDate))
      ++ [.persist (pyStr "last_display") (.obj error_state)],
     StateManager.setKey state (pyStr "last_display") (.obj error_state))
  else ([], state)

/-- The `no_data` snapshot dict (src/core/app.py:85). -/
def noDataState (currentDate : PyStr) : List (PyStr × Json) :=
  [(pyStr "status", .str (pyStr "no_data")), (pyStr "date", .str currentDate)]

/-- The `no_pickups` snapshot dict (src/core/app.py:95). -/
def noPickupsState (currentDate : PyStr) : List (PyStr × Json) :=
  [(pyStr "status", .str (pyStr "no_pickups")), (pyStr "date", .str currentDate)]

/-- The `error` snapshot dict (src/core/app.py:125). -/
def errorAppState (msg : PyStr) (currentDate : PyStr) : List (PyStr × Json) :=
  [(pyStr "status", .str (pyStr "error")), (pyStr "message", .str msg),
   (pyStr "date", .str currentDate)]

/-- The `success` snapshot dict (src/core/app.py:104). -/
def successAppState (waste_types collection_date : PyStr) (fractions : Json) :
    List (PyStr × Json) :=
  [(pyStr "status", .str (pyStr "success")),
   (pyStr "waste_types", .str waste_types),
   (pyStr "collection_date", .str collection_date),
   (pyStr "fractions", fractions)]

/-- `InkyPiApp.show_next_waste_pickup` (src/core/app.py:71), given the
fetch outcome (`None`, or the parsed schedule list), the current instant,
and the current-date string from the content provider.  `if not schedules`
treats `None` and the empty list alike; a `TypeError` from
`get_fractions_str` is caught by the surrounding `except` and becomes the
`error` snapshot. -/
def InkyPiApp.show_next_waste_pickup (state : List (PyStr × Json))
    (schedules : Option (List WasteSchedule)) (now : Nat) (currentDate : PyStr) :
    List DisplayEvent × List (PyStr × Json) :=
  match schedules with
  | none =>
      InkyPiApp.handle_error_state state (noDataState currentDate)
        (pyStr "No Data") currentDate
  | some [] =>
      InkyPiApp.handle_error_state state (noDataState currentDate)
        (pyStr "No Data") currentDate
  | some (schedule :: _) =>
      match schedule.get_next_collection now with
      | none =>
          InkyPiApp.handle_error_state state (noPickupsState currentDate)
            (pyStr "No Pickups") currentDate
      | some next =>
          match next.get_fractions_str with
          | .error e =>
              InkyPiApp.handle_error_state state (errorAppState e currentDate)
                (pyStr "Error") currentDate
          | .ok waste_types =>
              let collection_date := PlannedCollection.get_date_str now next
              let current_state :=
                successAppState waste_types collection_date next.fraktioner
              if StateManager.has_changed state (pyStr "last_display")
                  (.obj current_state) then
                (InkyPiApp.show_title_and_date waste_types (.str collection_date)
                  ++ [.persist (pyStr "last_display") (.obj current_state)],
                 StateManager.setKey state (pyStr "last_display")
                   (.obj current_state))
              else ([], state)

/-- The snapshot, display title and display date a cycle computes from
its inputs, independent of the stored state (used to state C9). -/
def cycleSnapshotTitleDate (schedules : Option (List WasteSchedule)) (now : Nat)
    (currentDate : PyStr) : List (PyStr × Json) × PyStr × Json :=
  match schedules with
  | none => (noDataState currentDate, pyStr "No Data", .str currentDate)
  | some [] => (noDataState currentDate, pyStr "No Data", .str currentDate)
  | some (schedule :: _) =>
      match schedule.get_next_collection now with
      | none => (noPickupsState currentDate, pyStr "No Pickups", .str currentDate)
      | some next =>
          match next.get_fractions_str with
          | .error e => (errorAppState e currentDate, pyStr "Error", .str currentDate)
          | .ok waste_types =>
              (successAppState waste_types (PlannedCollection.get_date_str now next)
                  next.fraktioner,
               waste_types, .str (PlannedCollection.get_date_str now next))

/-- C9: each cycle's snapshot is compared through
`has_changed("last_display", snapshot)`; when unchanged the cycle performs
no rendering, no display call and no persistence and leaves the store
untouched, and when changed it renders, sets the border, shows the image
and only then persists that same snapshot — never persisting before
showing. -/
theorem orchestrator_change_gated (state : List (PyStr × Json))
    (schedules : Option (List WasteSchedule)) (now : Nat) (currentDate : PyStr) :
    (StateManager.has_changed state (pyStr "last_display")
        (.obj (cycleSnapshotTitleDate schedules now currentDate).1) = false →
      InkyPiApp.show_next_waste_pickup state schedules now currentDate = ([], state))
    ∧ (StateManager.has_changed state (pyStr "last_display")
        (.obj (cycleSnapshotTitleDate schedules now currentDate).1) = true →
      InkyPiApp.show_next_waste_pickup state schedules now currentDate =
        ([.renderImage (cycleSnapshotTitleDate schedules now currentDate).2.1
            (cycleSnapshotTitleDate schedules now currentDate).2.2,
          .setBorder, .showImage,
          .persist (pyStr "last_display")
            (.obj (cycleSnapshotTitleDate schedules now currentDate).1)],
         StateManager.setKey state (pyStr "last_display")
           (.obj (cycleSnapshotTitleDate schedules now currentDate).1))) := by
  have main : ∀ (es : List (PyStr × Json)) (t : PyStr),
      lookupKey es (pyStr "date") = some (.str currentDate) →
      (StateManager.has_changed state (pyStr "last_display") (.obj es) = false →
        InkyPiApp.handle_error_state state es t currentDate = ([], state))
      ∧ (StateManager.has_changed state (pyStr "last_display") (.obj es) = true →
        InkyPiApp.handle_error_state state es t currentDate =
          ([.renderImage t (.str currentDate), .setBorder, .showImage,
            .persist (pyStr "last_display") (.obj es)],
           StateManager.setKey state (pyStr "last_display") (.obj es))) := by
    intro es t hdate
    constructor
    · intro h
      simp [InkyPiApp.handle_error_state, h]
    · intro h
      simp [InkyPiApp.handle_error_state, h, hdate, InkyPiApp.show_title_and_date]
  cases schedules with
  | none => exact main (noDataState currentDate) (pyStr "No Data") rfl
  | some l =>
      cases l with
      | nil => exact main (noDataState currentDate) (pyStr "No Data") rfl
      | cons schedule rest =>
          simp only [InkyPiApp.show_next_waste_pickup, cycleSnapshotTitleDate]
          cases hnext : schedule.get_next_collection now with
          | none =>
              simp only [hnext]
              exact main (noPickupsState currentDate) (pyStr "No Pickups") rfl
          | some next =>
              simp only [hnext]
              cases hfr : next.get_fractions_str with
              | error e =>
                  simp only [hfr]
                  exact main (errorAppState e currentDate) (pyStr "Error") rfl
              | ok waste_types =>
                  simp only [hfr]
                  constructor
                  · intro h
                    simp [h]
                  · intro h
                    simp [h, InkyPiApp.show_title_and_date]

/-- Witness for `orchestrator_change_gated`: on an empty store a `No Data`
cycle renders, sets the border, shows, then persists the snapshot. -/
theorem orchestrator_change_gated_witness :
    InkyPiApp.show_next_waste_pickup [] none 0 (pyStr "2026-10-12") =
      ([.renderImage (cycleSnapshotTitleDate none 0 (pyStr "2026-10-12")).2.1
          (cycleSnapshotTitleDate none 0 (pyStr "2026-10-12")).2.2,
        .setBorder, .showImage,
        .persist (pyStr "last_display")
          (.obj (cycleSnapshotTitleDate none 0 (pyStr "2026-10-12")).1)],
       StateManager.setKey [] (pyStr "last_display")
         (.obj (cycleSnapshotTitleDate none 0 (pyStr "2026-10-12")).1)) :=
  (orchestrator_change_gated [] none 0 (pyStr "2026-10-12")).2 (by decide)

/-- Lowercase hexadecimal digit code point of `n < 16`. -/
def hexDigit (n : Nat) : Nat := if n < 10 then 48 + n else 87 + n

/-- JSON escaping of one character under `ensure_ascii=False`
(CPython `json.encoder`): only the quote, the backslash and control
characters below `0x20` are escaped (`\b \t \n \f \r`, else `\u00xx`);
every other code point — all non-ASCII text included — is written
literally. -/
def escapeChar (c : Nat) : List Nat :=
  if c = 34 then [92, 34]
  else if c = 92 then [92, 92]
  else if c < 32 then
    if c = 8 then [92, 98]
    else if c = 9 then [92, 116]
    else if c = 10 then [92, 110]
    else if c = 12 then [92, 102]
    else if c = 13 then [92, 114]
    else [92, 117, 48, 48, hexDigit (c / 16), hexDigit (c % 16)]
  else [c]

/-- A JSON string literal: quote, escaped body, quote. -/
def encodeString (s : PyStr) : List Nat := 34 :: (s.flatMap escapeChar ++ [34])

/-- Python `str(n)` for an integer: optional minus sign and digits. -/
def intToDec : Int → PyStr
  | .ofNat m => natToDec m
  | .negSucc m => 45 :: natToDec (m + 1)

/-- The newline-plus-indentation `json.dump(..., indent=2)` writes before
each item nested at `level`. -/
def nlIndent (level : Nat) : List Nat := 10 :: List.replicate (2 * level) 32

mutual

/-- `json.dump(value, f, indent=2, ensure_ascii=False)` (as called by
`StateManager._save_state`, src/utils/state.py:42): the exact character
stream CPython emits — items on their own lines indented two spaces per
level, `": "` between key and value, empty containers inline. -/
def Json.dumps : Nat → Json → List Nat
  | _, .null => [110, 117, 108, 108]
  | _, .bool true => [116, 114, 117, 101]
  | _, .bool false => [102, 97, 108, 115, 101]
  | _, .int n => intToDec n
  | _, .str s => encodeString s
  | _, .arr [] => [91, 93]
  | level, .arr (x :: xs) =>
      91 :: (nlIndent (level + 1) ++ Json.dumps (level + 1) x
        ++ Json.dumpsArrTail (level + 1) xs ++ nlIndent level ++ [93])
  | _, .obj [] => [123, 125]
  | level, .obj (kv :: kvs) =>
      123 :: (nlIndent (level + 1) ++ encodeString kv.1 ++ 58 :: 32 ::
        Json.dumps (level + 1) kv.2
        ++ Json.dumpsObjTail (level + 1) kvs ++ nlIndent level ++ [125])

/-- Remaining array items: `,` then newline-indent then the item. -/
def Json.dumpsArrTail : Nat → List Json → List Nat
  | _, [] => []
  | level, x :: xs =>
      44 :: (nlIndent level ++ Json.dumps level x ++ Json.dumpsArrTail level xs)

/-- Remaining object items: `,` then newline-indent then `"key": value`. -/
def Json.dumpsObjTail : Nat → List (PyStr × Json) → List Nat
  | _, [] => []
  | level, kv :: kvs =>
      44 :: (nlIndent level ++ encodeString kv.1 ++ 58 :: 32 ::
        Json.dumps level kv.2 ++ Json.dumpsObjTail level kvs)

end

/-- JSON whitespace (space, tab, newline, carriage return). -/
def isWs (c : Nat) : Bool := c = 32 || c = 9 || c = 10 || c = 13

/-- Drop leading JSON whitespace. -/
def skipWs : List Nat → List Nat
  | [] => []
  | c :: rest => if isWs c then skipWs rest else c :: rest

/-- Decimal digit code point. -/
def isDigit (c : Nat) : Bool := 48 ≤ c && c ≤ 57

/-- Value of a hexadecimal digit code point. -/
def hexVal (c : Nat) : Option Nat :=
  if 48 ≤ c ∧ c ≤ 57 then some (c - 48)
  else if 97 ≤ c ∧ c ≤ 102 then some (c - 87)
  else if 65 ≤ c ∧ c ≤ 70 then some (c - 55)
  else none

/-- Body of a JSON string literal after the opening quote: plain
characters, the `\"`, `\\`, `\/`, `\b`, `\f`, `\n`, `\r`, `\t` escapes and
`\uXXXX` (astral code points written literally under
`ensure_ascii=False`; surrogate-pair recombination is not modelled since
the encoder under study never emits `\u` above `0x1f`). -/
def parseStringBody : List Nat → Option (PyStr × List Nat)
  | [] => none
  | c :: rest =>
      if c = 34 then some ([], rest)
      else if c = 92 then
        match rest with
        | [] => none
        | e :: rest2 =>
            if e = 34 then (parseStringBody rest2).map (fun r => (34 :: r.1, r.2))
            else if e = 92 then (parseStringBody rest2).map (fun r => (92 :: r.1, r.2))
            else if e = 47 then (parseStringBody rest2).map (fun r => (47 :: r.1, r.2))
            else if e = 98 then (parseStringBody rest2).map (fun r => (8 :: r.1, r.2))
            else if e = 102 then (parseStringBody rest2).map (fun r => (12 :: r.1, r.2))
            else if e = 110 then (parseStringBody rest2).map (fun r => (10 :: r.1, r.2))
            else if e = 114 then (parseStringBody rest2).map (fun r => (13 :: r.1, r.2))
            else if e = 116 then (parseStringBody rest2).map (fun r => (9 :: r.1, r.2))
            else if e = 117 then
              match rest2 with
              | h1 :: h2 :: h3 :: h4 :: rest3 =>
                  match hexVal h1, hexVal h2, hexVal h3, hexVal h4 with
                  | some a, some b, some cc, some d =>
                      (parseStringBody rest3).map
                        (fun r => ((((a * 16 + b) * 16 + cc) * 16 + d) :: r.1, r.2))
                  | _, _, _, _ => none
              | _ => none
            else none
      else (parseStringBody rest).map (fun r => (c :: r.1, r.2))

/-- Big-endian value of a digit string. -/
def digitsVal (ds : List Nat) : Nat := ds.foldl (fun a d => a * 10 + (d - 48)) 0

/-- A JSON integer: optional minus sign and a nonempty digit run (the
fraction/exponent forms produce floats, which the store under study never
writes; they are not modelled). -/
def parseNumber : List Nat → Option (Int × List Nat)
  | [] => none
  | c :: t =>
      if c = 45 then
        match t.takeWhile isDigit with
        | [] => none
        | ds => some (-(digitsVal ds : Int), t.dropWhile isDigit)
      else
        match (c :: t).takeWhile isDigit with
        | [] => none
        | ds => some ((digitsVal ds : Int), (c :: t).dropWhile isDigit)

mutual

/-- `json.load` value scanner (as used by `StateManager._load_state`,
src/utils/state.py:27), fuel-bounded: skip whitespace, then dispatch on
the first character to the keyword, string, array, object or number
grammar. -/
def parseVal : Nat → List Nat → Option (Json × List Nat)
  | 0, _ => none
  | fuel + 1, s =>
      match skipWs s with
      | [] => none
      | c :: rest =>
          if c = 110 then
            match rest with
            | 117 :: 108 :: 108 :: rest2 => some (.null, rest2)
            | _ => none
          else if c = 116 then
            match rest with
            | 114 :: 117 :: 101 :: rest2 => some (.bool true, rest2)
            | _ => none
          else if c = 102 then
            match rest with
            | 97 :: 108 :: 115 :: 101 :: rest2 => some (.bool false, rest2)
            | _ => none
          else if c = 34 then
            (parseStringBody rest).map (fun r => (.str r.1, r.2))
          else if c = 91 then
            match skipWs rest with
            | [] => none
            | c2 :: rest2 =>
                if c2 = 93 then some (.arr [], rest2)
                else (parseArrItems fuel (c2 :: rest2)).map
                  (fun r => (.arr r.1, r.2))
          else if c = 123 then
            match skipWs rest with
            | [] => none
            | c2 :: rest2 =>
                if c2 = 125 then some (.obj [], rest2)
                else (parseObjItems fuel (c2 :: rest2)).map
                  (fun r => (.obj r.1, r.2))
          else
            (parseNumber (c :: rest)).map (fun r => (.int r.1, r.2))

/-- One-or-more array items separated by commas, ended by `]`. -/
def parseArrItems : Nat → List Nat → Option (List Json × List Nat)
  | 0, _ => none
  | fuel + 1, s =>
      match parseVal fuel s with
      | none => none
      | some (v, rest) =>
          match skipWs rest with
          | [] => none
          | c :: rest2 =>
              if c = 44 then
                match parseArrItems fuel rest2 with
                | none => none
                | some (vs, rest3) => some (v :: vs, rest3)
              else if c = 93 then some ([v], rest2)
              else none

/-- One-or-more `"key": value` object items separated by commas, ended by
`}`. -/
def parseObjItems : Nat → List Nat → Option (List (PyStr × Json) × List Nat)
  | 0, _ => none
  | fuel + 1, s =>
      match skipWs s with
      | [] => none
      | c :: rest =>
          if c = 34 then
            match parseStringBody rest with
            | none => none
            | some (k, rest2) =>
                match skipWs rest2 with
                | [] => none
                | c2 :: rest3 =>
                    if c2 = 58 then
                      match parseVal fuel rest3 with
                      | none => none
                      | some (v, rest4) =>
                          match skipWs rest4 with
                          | [] => none
                          | c3 :: rest5 =>
                              if c3 = 44 then
                                match parseObjItems fuel rest5 with
                                | none => none
                                | some (kvs, rest6) => some ((k, v) :: kvs, rest6)
                              else if c3 = 125 then some ([(k, v)], rest5)
                              else none
                    else none
          else none

end

/-- `json.load` on a whole file: one value, then nothing but whitespace.
The fuel `length + 1` always suffices (each recursive level consumes at
least one input character). -/
def pyJsonLoads (content : List Nat) : Option Json :=
  match parseVal (content.length + 1) content with
  | some (v, rest) => if skipWs rest = [] then some v else none
  | none => none

/-- `StateManager._save_state` (src/utils/state.py:42): the file contents
written for a state dict. -/
def StateManager.save_state (state : List (PyStr × Json)) : List Nat :=
  Json.dumps 0 (.obj state)

/-- `StateManager._load_state` (src/utils/state.py:27): the parsed file
contents, or the empty dict when the file is unparsable (corrupt state
resets to empty). -/
def StateManager.load_state (content : List Nat) : Json :=
  (pyJsonLoads content).getD (.obj [])

example : Json.dumps 0 (.obj [(pyStr "a", .int (-12))]) =
    pyStr "\x7b\n  " ++ [34, 97, 34, 58, 32, 45, 49, 50] ++ [10, 125] := by decide

example : pyJsonLoads (Json.dumps 0 (.obj [(pyStr "danish", .str (pyStr "æøå")),
    (pyStr "emoji", .str (pyStr "🗑️"))])) =
  some (.obj [(pyStr "danish", .str (pyStr "æøå")),
    (pyStr "emoji", .str (pyStr "🗑️"))]) := by decide

example : pyJsonLoads (Json.dumps 0 (.arr [.int 10, .bool true, .null,
    .str [8, 31, 92, 34], .obj [], .arr [.arr [.int (-3)]]])) =
  some (.arr [.int 10, .bool true, .null, .str [8, 31, 92, 34], .obj [],
    .arr [.arr [.int (-3)]]]) := by decide

/-- Every character of a newline-indent run is JSON whitespace. -/
theorem nlIndent_ws (l : Nat) : ∀ c ∈ nlIndent l, isWs c = true := by
  intro c hc
  rcases List.mem_cons.mp hc with rfl | hc
  · rfl
  · rw [List.eq_of_mem_replicate hc]; rfl

/-- Leading whitespace is skipped through an append. -/
theorem skipWs_append_ws : ∀ (pre t : List Nat), (∀ c ∈ pre, isWs c = true) →
    skipWs (pre ++ t) = skipWs t := by
  intro pre
  induction pre with
  | nil => intro t _; rfl
  | cons c cs ih =>
      intro t h
      have hc : isWs c = true := h c (List.mem_cons_self c cs)
      simp only [List.cons_append, skipWs, hc, if_true]
      exact ih t (fun d hd => h d (List.mem_cons_of_mem c hd))

/-- `skipWs` stops at a non-whitespace head. -/
theorem skipWs_cons_not (c : Nat) (t : List Nat) (h : isWs c = false) :
    skipWs (c :: t) = c :: t := by
  simp [skipWs, h]

/-- `parseVal` ignores leading whitespace. -/
theorem parseVal_ws (fuel : Nat) (pre s : List Nat) (h : ∀ c ∈ pre, isWs c = true) :
    parseVal fuel (pre ++ s) = parseVal fuel s := by
  cases fuel with
  | zero => rfl
  | succ fuel => simp only [parseVal, skipWs_append_ws pre s h]

/-- `parseArrItems` ignores leading whitespace (its first step is a
`parseVal`). -/
theorem parseArrItems_ws (fuel : Nat) (pre s : List Nat)
    (h : ∀ c ∈ pre, isWs c = true) :
    parseArrItems fuel (pre ++ s) = parseArrItems fuel s := by
  cases fuel with
  | zero => rfl
  | succ fuel => simp only [parseArrItems, parseVal_ws fuel pre s h]

/-- `parseObjItems` ignores leading whitespace. -/
theorem parseObjItems_ws (fuel : Nat) (pre s : List Nat)
    (h : ∀ c ∈ pre, isWs c = true) :
    parseObjItems fuel (pre ++ s) = parseObjItems fuel s := by
  cases fuel with
  | zero => rfl
  | succ fuel => simp only [parseObjItems, skipWs_append_ws pre s h]

/-- The digit emitter is correct: with enough fuel the output is a
nonempty string of decimal digit code points whose value is `n`. -/
theorem natToDecGo_spec : ∀ (fuel n : Nat), n < fuel →
    natToDecGo fuel n ≠ [] ∧ (∀ c ∈ natToDecGo fuel n, 48 ≤ c ∧ c ≤ 57) ∧
    ∀ acc, List.foldl (fun a d => a * 10 + (d - 48)) acc (natToDecGo fuel n)
      = acc * 10 ^ (natToDecGo fuel n).length + n := by
  intro fuel
  induction fuel with
  | zero => intro n h; omega
  | succ fuel ih =>
      intro n h
      by_cases h10 : n < 10
      · refine ⟨by simp [natToDecGo, h10], ?_, ?_⟩
        · intro c hc
          simp only [natToDecGo, h10, if_true, List.mem_singleton] at hc
          omega
        · intro acc
          simp [natToDecGo, h10]
      · have hrec : n / 10 < fuel := by omega
        obtain ⟨hne, hdig, hval⟩ := ih (n / 10) hrec
        refine ⟨by simp [natToDecGo, h10], ?_, ?_⟩
        · intro c hc
          simp only [natToDecGo, h10, if_false, List.mem_append,
            List.mem_singleton] at hc
          rcases hc with hc | rfl
          · exact hdig c hc
          · omega
        · intro acc
          simp only [natToDecGo, h10, if_false, List.foldl_append,
            List.foldl_cons, List.foldl_nil, hval acc, List.length_append,
            List.length_singleton]
          have : (48 + n % 10) - 48 = n % 10 := by omega
          rw [this, pow_succ]
          have := Nat.div_add_mod n 10
          ring_nf
          omega

/-- `str(n)` is nonempty and all digits, and `digitsVal` inverts it. -/
theorem natToDec_spec (n : Nat) :
    natToDec n ≠ [] ∧ (∀ c ∈ natToDec n, 48 ≤ c ∧ c ≤ 57) ∧
    digitsVal (natToDec n) = n := by
  obtain ⟨h1, h2, h3⟩ := natToDecGo_spec (n + 1) n (Nat.lt_succ_self n)
  exact ⟨h1, h2, by simpa using h3 0⟩

/-- The first character of `l` (if any) fails the predicate `p`. -/
def headFails (p : Nat → Bool) : List Nat → Prop
  | [] => True
  | c :: _ => p c = false

/-- The head constraint under which a greedy digit run stops: an empty
remainder or a non-digit first character. -/
def noDigitHead (l : List Nat) : Prop := headFails isDigit l

/-- A run satisfying `p` followed by a `p`-failing head splits a
`takeWhile`/`dropWhile` exactly at the boundary. -/
theorem takeWhile_all_append (p : Nat → Bool) : ∀ (l1 l2 : List Nat),
    (∀ c ∈ l1, p c = true) → headFails p l2 →
    (l1 ++ l2).takeWhile p = l1 ∧ (l1 ++ l2).dropWhile p = l2 := by
  intro l1
  induction l1 with
  | nil =>
      intro l2 _ h2
      cases l2 with
      | nil => exact ⟨rfl, rfl⟩
      | cons c t =>
          have hc : p c = false := h2
          simp [List.takeWhile_cons, List.dropWhile_cons, hc]
  | cons c cs ih =>
      intro l2 h1 h2
      have hc : p c = true := h1 c (List.mem_cons_self c cs)
      obtain ⟨ht, hd⟩ := ih l2 (fun d hd => h1 d (List.mem_cons_of_mem c hd)) h2
      simp [List.takeWhile_cons, List.dropWhile_cons, hc, ht, hd]

/-- `str(n)` of an integer starts with a minus sign or a digit. -/
theorem intToDec_head (n : Int) : ∃ d t, intToDec n = d :: t ∧
    (d = 45 ∨ (48 ≤ d ∧ d ≤ 57)) := by
  cases n with
  | ofNat m =>
      obtain ⟨h1, h2, _⟩ := natToDec_spec m
      obtain ⟨d, t, hdt⟩ := List.exists_cons_of_ne_nil h1
      exact ⟨d, t, hdt, Or.inr (h2 d (by rw [hdt]; exact List.mem_cons_self d t))⟩
  | negSucc m => exact ⟨45, natToDec (m + 1), rfl, Or.inl rfl⟩

/-- The number scanner inverts `str(n)` when the remainder does not begin
with a digit (so the greedy digit run stops at the boundary). -/
theorem parseNumber_intToDec (n : Int) (rest : List Nat) (h : noDigitHead rest) :
    parseNumber (intToDec n ++ rest) = some (n, rest) := by
  have hrest : headFails isDigit rest := h
  cases n with
  | ofNat m =>
      obtain ⟨h1, h2, h3⟩ := natToDec_spec m
      obtain ⟨d, t, hdt⟩ := List.exists_cons_of_ne_nil h1
      have hdd : 48 ≤ d ∧ d ≤ 57 := h2 d (by rw [hdt]; exact List.mem_cons_self d t)
      obtain ⟨htake, hdrop⟩ := takeWhile_all_append isDigit (natToDec m) rest
        (fun c hc => by have := h2 c hc; simp [isDigit]; omega) hrest
      have hd45 : ¬ d = 45 := by omega
      rw [show intToDec (Int.ofNat m) = natToDec m from rfl, hdt, List.cons_append,
        parseNumber]
      rw [← List.cons_append, ← hdt, if_neg hd45, htake, hdrop]
      have hcase : natToDec m ≠ [] := h1
      cases hnd : natToDec m with
      | nil => exact absurd hnd hcase
      | cons a b =>
          simp only []
          rw [← hnd, h3]
          rfl
  | negSucc m =>
      obtain ⟨h1, h2, h3⟩ := natToDec_spec (m + 1)
      obtain ⟨htake, hdrop⟩ := takeWhile_all_append isDigit (natToDec (m + 1)) rest
        (fun c hc => by have := h2 c hc; simp [isDigit]; omega) hrest
      rw [show intToDec (Int.negSucc m) = 45 :: natToDec (m + 1) from rfl,
        List.cons_append, parseNumber, if_pos rfl, htake, hdrop]
      cases hnd : natToDec (m + 1) with
      | nil => exact absurd hnd h1
      | cons a b =>
          simp only []
          rw [← hnd, h3]
          simp [Int.negSucc_eq]

/-- `hexVal` inverts `hexDigit` on nibble values. -/
theorem hexVal_hexDigit : ∀ n, n < 16 → hexVal (hexDigit n) = some n := by decide

/-- Unfolding lemmas for the string scanner, one per input shape
(auto-generated equations do not reduce on a symbolic tail). -/
theorem psb_quote (t : List Nat) : parseStringBody (34 :: t) = some ([], t) := by
  conv_lhs => rw [parseStringBody.eq_def]
  simp

theorem psb_esc_quote (t : List Nat) : parseStringBody (92 :: 34 :: t) =
    (parseStringBody t).map (fun r => (34 :: r.1, r.2)) := by
  conv_lhs => rw [parseStringBody.eq_def]
  simp

theorem psb_esc_back (t : List Nat) : parseStringBody (92 :: 92 :: t) =
    (parseStringBody t).map (fun r => (92 :: r.1, r.2)) := by
  conv_lhs => rw [parseStringBody.eq_def]
  simp

theorem psb_esc_b (t : List Nat) : parseStringBody (92 :: 98 :: t) =
    (parseStringBody t).map (fun r => (8 :: r.1, r.2)) := by
  conv_lhs => rw [parseStringBody.eq_def]
  simp

theorem psb_esc_f (t : List Nat) : parseStringBody (92 :: 102 :: t) =
    (parseStringBody t).map (fun r => (12 :: r.1, r.2)) := by
  conv_lhs => rw [parseStringBody.eq_def]
  simp

theorem psb_esc_n (t : List Nat) : parseStringBody (92 :: 110 :: t) =
    (parseStringBody t).map (fun r => (10 :: r.1, r.2)) := by
  conv_lhs => rw [parseStringBody.eq_def]
  simp

theorem psb_esc_r (t : List Nat) : parseStringBody (92 :: 114 :: t) =
    (parseStringBody t).map (fun r => (13 :: r.1, r.2)) := by
  conv_lhs => rw [parseStringBody.eq_def]
  simp

theorem psb_esc_t (t : List Nat) : parseStringBody (92 :: 116 :: t) =
    (parseStringBody t).map (fun r => (9 :: r.1, r.2)) := by
  conv_lhs => rw [parseStringBody.eq_def]
  simp

theorem psb_plain (c : Nat) (t : List Nat) (h34 : ¬c = 34) (h92 : ¬c = 92) :
    parseStringBody (c :: t) = (parseStringBody t).map (fun r => (c :: r.1, r.2)) := by
  conv_lhs => rw [parseStringBody.eq_def]
  simp [h34, h92]

theorem psb_esc_u (h1 h2 h3 h4 : Nat) (a b cc d : Nat) (t : List Nat)
    (e1 : hexVal h1 = some a) (e2 : hexVal h2 = some b) (e3 : hexVal h3 = some cc)
    (e4 : hexVal h4 = some d) :
    parseStringBody (92 :: 117 :: h1 :: h2 :: h3 :: h4 :: t) =
      (parseStringBody t).map
        (fun r => ((((a * 16 + b) * 16 + cc) * 16 + d) :: r.1, r.2)) := by
  conv_lhs => rw [parseStringBody.eq_def]
  simp [e1, e2, e3, e4]

/-- The string scanner inverts the `ensure_ascii=False` escaper: the
escaped body followed by the closing quote parses back to the original
code points with the remainder untouched. -/
theorem parseStringBody_escape : ∀ (s : PyStr) (rest : List Nat),
    parseStringBody (s.flatMap escapeChar ++ (34 :: rest)) = some (s, rest) := by
  intro s
  induction s with
  | nil => intro rest; simpa using psb_quote rest
  | cons c cs ih =>
      intro rest
      rw [List.flatMap_cons, List.append_assoc]
      by_cases h34 : c = 34
      · subst h34
        simpa [escapeChar, psb_esc_quote] using congrArg (Option.map
          (fun r => (34 :: r.1, r.2))) (ih rest)
      · by_cases h92 : c = 92
        · subst h92
          simp [escapeChar, psb_esc_back, ih rest]
        · by_cases hlt : c < 32
          · by_cases h8 : c = 8
            · subst h8; simp [escapeChar, psb_esc_b, ih rest]
            · by_cases h9 : c = 9
              · subst h9; simp [escapeChar, psb_esc_t, ih rest]
              · by_cases h10 : c = 10
                · subst h10; simp [escapeChar, psb_esc_n, ih rest]
                · by_cases h12 : c = 12
                  · subst h12; simp [escapeChar, psb_esc_f, ih rest]
                  · by_cases h13 : c = 13
                    · subst h13; simp [escapeChar, psb_esc_r, ih rest]
                    · have hd1 : hexVal (hexDigit (c / 16)) = some (c / 16) :=
                        hexVal_hexDigit _ (by omega)
                      have hd2 : hexVal (hexDigit (c % 16)) = some (c % 16) :=
                        hexVal_hexDigit _ (by omega)
                      have h48 : hexVal 48 = some 0 := rfl
                      simp only [escapeChar, h34, h92, hlt, h8, h9, h10, h12, h13,
                        if_false, if_true, if_neg, List.cons_append, List.nil_append]
                      rw [psb_esc_u _ _ _ _ _ _ _ _ _ h48 h48 hd1 hd2, ih rest]
                      simp
                      omega
          · simp [escapeChar, h34, h92, hlt, psb_plain _ _ h34 h92, ih rest]

/-- Every `dumps` output starts with a non-whitespace character that is
neither a closing bracket nor a closing brace. -/
theorem dumps_head (level : Nat) (v : Json) : ∃ c t,
    Json.dumps level v = c :: t ∧ isWs c = false ∧ c ≠ 93 ∧ c ≠ 125 := by
  cases v with
  | null => exact ⟨110, _, rfl, by decide, by decide, by decide⟩
  | bool b =>
      cases b with
      | true => exact ⟨116, _, rfl, by decide, by decide, by decide⟩
      | false => exact ⟨102, _, rfl, by decide, by decide, by decide⟩
  | int n =>
      obtain ⟨d, t, hdt, hd⟩ := intToDec_head n
      refine ⟨d, t, by simp [Json.dumps, hdt], ?_, by omega, by omega⟩
      simp only [isWs]
      simp only [Bool.or_eq_false_iff, decide_eq_false_iff_not]
      omega
  | str s => exact ⟨34, _, rfl, by decide, by decide, by decide⟩
  | arr l =>
      cases l with
      | nil => exact ⟨91, _, rfl, by decide, by decide, by decide⟩
      | cons x xs => exact ⟨91, _, rfl, by decide, by decide, by decide⟩
  | obj l =>
      cases l with
      | nil => exact ⟨123, _, rfl, by decide, by decide, by decide⟩
      | cons kv kvs => exact ⟨123, _, rfl, by decide, by decide, by decide⟩

mutual

/-- Nesting measure of a JSON value, bounding the parser fuel it needs. -/
def Json.size : Json → Nat
  | .null => 1
  | .bool _ => 1
  | .int _ => 1
  | .str _ => 1
  | .arr l => 1 + Json.sizeList l
  | .obj l => 1 + Json.sizeObj l

/-- Measure of an array item list. -/
def Json.sizeList : List Json → Nat
  | [] => 1
  | x :: xs => 1 + Json.size x + Json.sizeList xs

/-- Measure of an object item list. -/
def Json.sizeObj : List (PyStr × Json) → Nat
  | [] => 1
  | kv :: kvs => 1 + Json.size kv.2 + Json.sizeObj kvs

end

mutual

theorem size_le_dumps_len : ∀ (level : Nat) (v : Json),
    Json.size v ≤ (Json.dumps level v).length
  | _, .null => by simp [Json.dumps, Json.size]
  | _, .bool true => by simp [Json.dumps, Json.size]
  | _, .bool false => by simp [Json.dumps, Json.size]
  | _, .int n => by
      obtain ⟨d, t, hdt, _⟩ := intToDec_head n
      simp [Json.dumps, Json.size, hdt]
  | _, .str s => by simp [Json.dumps, Json.size, encodeString]
  | _, .arr [] => by simp [Json.dumps, Json.size, Json.sizeList]
  | level, .arr (x :: xs) => by
      have h1 := size_le_dumps_len (level + 1) x
      have h2 := sizeList_le_arrTail_len (level + 1) xs
      simp only [Json.dumps, Json.size, Json.sizeList, List.length_cons,
        List.length_append, nlIndent, List.length_replicate]
      omega
  | _, .obj [] => by simp [Json.dumps, Json.size, Json.sizeObj]
  | level, .obj (kv :: kvs) => by
      have h1 := size_le_dumps_len (level + 1) kv.2
      have h2 := sizeObj_le_objTail_len (level + 1) kvs
      simp only [Json.dumps, Json.size, Json.sizeObj, List.length_cons,
        List.length_append, nlIndent, List.length_replicate]
      omega

theorem sizeList_le_arrTail_len : ∀ (level : Nat) (xs : List Json),
    Json.sizeList xs ≤ (Json.dumpsArrTail level xs).length + 1
  | _, [] => by simp [Json.dumpsArrTail, Json.sizeList]
  | level, x :: xs => by
      have h1 := size_le_dumps_len level x
      have h2 := sizeList_le_arrTail_len level xs
      simp only [Json.dumpsArrTail, Json.sizeList, List.length_cons,
        List.length_append, nlIndent, List.length_replicate]
      omega

theorem sizeObj_le_objTail_len : ∀ (level : Nat) (kvs : List (PyStr × Json)),
    Json.sizeObj kvs ≤ (Json.dumpsObjTail level kvs).length + 1
  | _, [] => by simp [Json.dumpsObjTail, Json.sizeObj]
  | level, kv :: kvs => by
      have h1 := size_le_dumps_len level kv.2
      have h2 := sizeObj_le_objTail_len level kvs
      simp only [Json.dumpsObjTail, Json.sizeObj, List.length_cons,
        List.length_append, nlIndent, List.length_replicate]
      omega

end

/-- After an array element, the serializer emits a comma or a newline:
never a digit, so number scanning stops at the boundary. -/
theorem arrTail_noDigitHead (lvl L : Nat) (xs : List Json) (rest : List Nat) :
    noDigitHead (Json.dumpsArrTail lvl xs ++ (nlIndent L ++ (93 :: rest))) := by
  cases xs with
  | nil => show isDigit 10 = false; rfl
  | cons y ys => show isDigit 44 = false; rfl

/-- After an object value, the serializer emits a comma or a newline:
never a digit. -/
theorem objTail_noDigitHead (lvl L : Nat) (kvs : List (PyStr × Json))
    (rest : List Nat) :
    noDigitHead (Json.dumpsObjTail lvl kvs ++ (nlIndent L ++ (125 :: rest))) := by
  cases kvs with
  | nil => show isDigit 10 = false; rfl
  | cons kv kvs => show isDigit 44 = false; rfl

/-- Every JSON value has positive measure. -/
theorem Json.size_pos : ∀ v : Json, 1 ≤ Json.size v := by
  intro v
  cases v <;> simp [Json.size]

/-- The scanner inverts the serializer: with fuel at least the value's
measure, a dumped value followed by any non-digit-headed remainder parses
back to exactly that value (stated mutually for whole values, array item
runs and object item runs). -/
theorem parse_dumps_round : ∀ fuel : Nat,
    (∀ (v : Json) (level : Nat) (rest : List Nat), Json.size v ≤ fuel →
      noDigitHead rest →
      parseVal fuel (Json.dumps level v ++ rest) = some (v, rest))
    ∧ (∀ (x : Json) (xs : List Json) (lvl L : Nat) (rest : List Nat),
      Json.sizeList (x :: xs) ≤ fuel → noDigitHead rest →
      parseArrItems fuel (Json.dumps lvl x ++ (Json.dumpsArrTail lvl xs
        ++ (nlIndent L ++ (93 :: rest)))) = some (x :: xs, rest))
    ∧ (∀ (k : PyStr) (v : Json) (kvs : List (PyStr × Json)) (lvl L : Nat)
      (rest : List Nat), Json.sizeObj ((k, v) :: kvs) ≤ fuel → noDigitHead rest →
      parseObjItems fuel (encodeString k ++ (58 :: 32 :: (Json.dumps lvl v
        ++ (Json.dumpsObjTail lvl kvs ++ (nlIndent L ++ (125 :: rest))))))
        = some ((k, v) :: kvs, rest)) := by
  intro fuel
  induction fuel with
  | zero =>
      refine ⟨?_, ?_, ?_⟩
      · intro v level rest hsz _
        have := Json.size_pos v
        omega
      · intro x xs lvl L rest hsz _
        simp [Json.sizeList] at hsz
      · intro k v kvs lvl L rest hsz _
        simp [Json.sizeObj] at hsz
  | succ fuel ih =>
      obtain ⟨ihV, ihA, ihO⟩ := ih
      refine ⟨?_, ?_, ?_⟩
      · intro v level rest hsz hnd
        cases v with
        | null => simp [Json.dumps, parseVal, skipWs, isWs]
        | bool b => cases b <;> simp [Json.dumps, parseVal, skipWs, isWs]
        | int n =>
            obtain ⟨d, t, hdt, hd⟩ := intToDec_head n
            have hws : isWs d = false := by
              simp only [isWs, Bool.or_eq_false_iff, decide_eq_false_iff_not]
              omega
            have hnum := parseNumber_intToDec n rest hnd
            rw [hdt, List.cons_append] at hnum
            simp only [Json.dumps, hdt, List.cons_append, parseVal,
              skipWs_cons_not _ _ hws]
            simp [show ¬d = 110 by omega, show ¬d = 116 by omega,
              show ¬d = 102 by omega, show ¬d = 34 by omega,
              show ¬d = 91 by omega, show ¬d = 123 by omega, hnum]
        | str s =>
            simp only [Json.dumps, encodeString, List.cons_append,
              List.append_assoc, List.singleton_append, parseVal]
            rw [skipWs_cons_not 34 _ (by decide)]
            simp [parseStringBody_escape s rest]
        | arr l =>
            cases l with
            | nil => simp [Json.dumps, parseVal, skipWs, isWs]
            | cons x xs =>
                have hszl : Json.sizeList (x :: xs) ≤ fuel := by
                  simp only [Json.size] at hsz
                  omega
                obtain ⟨c2, t2, hct, hc2ws, hc2n93, _⟩ := dumps_head (level + 1) x
                have ihA' := ihA x xs (level + 1) level rest hszl hnd
                rw [hct, List.cons_append] at ihA'
                have hskip : skipWs (nlIndent (level + 1) ++ (Json.dumps (level + 1) x
                    ++ (Json.dumpsArrTail (level + 1) xs ++ (nlIndent level
                    ++ (93 :: rest)))))
                  = c2 :: (t2 ++ (Json.dumpsArrTail (level + 1) xs ++ (nlIndent level
                    ++ (93 :: rest)))) := by
                  rw [skipWs_append_ws _ _ (nlIndent_ws (level + 1)), hct,
                    List.cons_append, skipWs_cons_not _ _ hc2ws]
                simp only [Json.dumps, List.cons_append, List.append_assoc,
                  List.singleton_append, parseVal]
                rw [skipWs_cons_not 91 _ (by decide)]
                simp [hskip, hc2n93, ihA']
        | obj l =>
            cases l with
            | nil => simp [Json.dumps, parseVal, skipWs, isWs]
            | cons kv kvs =>
                obtain ⟨k, v⟩ := kv
                have hszl : Json.sizeObj ((k, v) :: kvs) ≤ fuel := by
                  simp only [Json.size] at hsz
                  omega
                have ihO' := ihO k v kvs (level + 1) level rest hszl hnd
                simp only [encodeString, List.cons_append, List.append_assoc,
                  List.singleton_append, List.nil_append] at ihO'
                have hskip : ∀ t : List Nat, skipWs (nlIndent (level + 1) ++ (34 :: t))
                    = 34 :: t := fun t => by
                  rw [skipWs_append_ws _ _ (nlIndent_ws (level + 1)),
                    skipWs_cons_not 34 _ (by decide)]
                simp only [Json.dumps, encodeString, List.cons_append,
                  List.append_assoc, List.singleton_append, parseVal]
                rw [skipWs_cons_not 123 _ (by decide)]
                simp [hskip, ihO']
      · intro x xs lvl L rest hsz hnd
        have hszx : Json.size x ≤ fuel := by
          simp only [Json.sizeList] at hsz
          omega
        simp only [parseArrItems]
        rw [ihV x lvl _ hszx (arrTail_noDigitHead lvl L xs rest)]
        cases xs with
        | nil =>
            simp [Json.dumpsArrTail, skipWs_append_ws _ _ (nlIndent_ws L),
              skipWs_cons_not 93 rest (by decide)]
        | cons y ys =>
            have hszys : Json.sizeList (y :: ys) ≤ fuel := by
              simp only [Json.sizeList] at hsz ⊢
              omega
            have ihA' := ihA y ys lvl L rest hszys hnd
            have hws : ∀ t : List Nat, parseArrItems fuel (nlIndent lvl ++ t)
                = parseArrItems fuel t :=
              fun t => parseArrItems_ws fuel (nlIndent lvl) t (nlIndent_ws lvl)
            simp only [Json.dumpsArrTail, List.cons_append, List.append_assoc]
            rw [skipWs_cons_not 44 _ (by decide)]
            simp only [List.append_assoc] at ihA' ⊢
            simp [hws, ihA']
      · intro k v kvs lvl L rest hsz hnd
        have hszv : Json.size v ≤ fuel := by
          simp only [Json.sizeObj] at hsz
          omega
        have hvrt := ihV v lvl _ hszv (objTail_noDigitHead lvl L kvs rest)
        have hstr := parseStringBody_escape k (58 :: 32 :: (Json.dumps lvl v
          ++ (Json.dumpsObjTail lvl kvs ++ (nlIndent L ++ (125 :: rest)))))
        have hws32 : parseVal fuel (32 :: (Json.dumps lvl v
            ++ (Json.dumpsObjTail lvl kvs ++ (nlIndent L ++ (125 :: rest)))))
          = parseVal fuel (Json.dumps lvl v
            ++ (Json.dumpsObjTail lvl kvs ++ (nlIndent L ++ (125 :: rest)))) :=
          parseVal_ws fuel [32] _ (by intro c hc; simp at hc; subst hc; rfl)
        simp only [parseObjItems, encodeString, List.cons_append,
          List.append_assoc, List.singleton_append]
        rw [skipWs_cons_not 34 _ (by decide)]
        simp only [List.append_assoc] at hstr
        cases kvs with
        | nil =>
            simp only [Json.dumpsObjTail, List.nil_append] at hstr hvrt hws32
            simp [Json.dumpsObjTail, hstr, hws32, hvrt,
              skipWs_append_ws _ _ (nlIndent_ws L),
              skipWs_cons_not 58 _ (by decide),
              skipWs_cons_not 125 rest (by decide)]
        | cons kv2 kvs2 =>
            obtain ⟨k2, v2⟩ := kv2
            have hszk : Json.sizeObj ((k2, v2) :: kvs2) ≤ fuel := by
              simp only [Json.sizeObj] at hsz ⊢
              omega
            have ihO' := ihO k2 v2 kvs2 lvl L rest hszk hnd
            have hwsO : ∀ t : List Nat, parseObjItems fuel (nlIndent lvl ++ t)
                = parseObjItems fuel t :=
              fun t => parseObjItems_ws fuel (nlIndent lvl) t (nlIndent_ws lvl)
            simp only [Json.dumpsObjTail, List.cons_append, List.append_assoc]
            simp only [Json.dumpsObjTail, List.cons_append, List.append_assoc]
              at hstr hvrt hws32
            simp [hstr, hws32, hvrt, hwsO, ihO',
              skipWs_cons_not 58 _ (by decide),
              skipWs_cons_not 44 _ (by decide)]

/-- `json.load` inverts `json.dump(indent=2, ensure_ascii=False)` on any
value this store can hold. -/
theorem pyJsonLoads_dumps (v : Json) : pyJsonLoads (Json.dumps 0 v) = some v := by
  unfold pyJsonLoads
  have hfuel : Json.size v ≤ (Json.dumps 0 v).length + 1 :=
    le_trans (size_le_dumps_len 0 v) (Nat.le_succ _)
  have h := (parse_dumps_round ((Json.dumps 0 v).length + 1)).1 v 0 [] hfuel trivial
  rw [List.append_nil] at h
  rw [h]
  rfl

/-- C4: for every state map, key and JSON-compatible value, writing the
value with `set` (which persists the whole map with
`json.dump(..., indent=2, ensure_ascii=False)`) and constructing a fresh
`StateManager` over the same file yields exactly the persisted map back —
load after save is the identity — and the fresh store's `get` on that key
returns the value that was set, non-ASCII text included. -/
theorem stateManager_set_reload_roundtrip (m : List (PyStr × Json)) (key : PyStr)
    (v : Json) :
    StateManager.load_state (StateManager.save_state (StateManager.setKey m key v))
      = Json.obj (StateManager.setKey m key v)
    ∧ ∀ m', StateManager.load_state
        (StateManager.save_state (StateManager.setKey m key v)) = Json.obj m' →
        StateManager.get m' key Json.null = v := by
  have hload : StateManager.load_state
      (StateManager.save_state (StateManager.setKey m key v))
      = Json.obj (StateManager.setKey m key v) := by
    unfold StateManager.load_state StateManager.save_state
    rw [pyJsonLoads_dumps]
    rfl
  refine ⟨hload, ?_⟩
  intro m' hm'
  rw [hload] at hm'
  have : m' = StateManager.setKey m key v := by
    injection hm' with h
    exact h.symm
  rw [this, StateManager.get, lookupKey_setKey_self]
  rfl

/-- Witness for `stateManager_set_reload_roundtrip`: the spec's Unicode
payload round-trips through the state file and reads back intact. -/
theorem stateManager_set_reload_roundtrip_witness :
    StateManager.get
      (StateManager.setKey [] (pyStr "last_display")
        (Json.obj [(pyStr "danish", .str (pyStr "æøå")),
          (pyStr "emoji", .str (pyStr "🗑️"))]))
      (pyStr "last_display") Json.null
      = Json.obj [(pyStr "danish", .str (pyStr "æøå")),
          (pyStr "emoji", .str (pyStr "🗑️"))] :=
  (stateManager_set_reload_roundtrip [] (pyStr "last_display")
      (Json.obj [(pyStr "danish", .str (pyStr "æøå")),
        (pyStr "emoji", .str (pyStr "🗑️"))])).2
    (StateManager.setKey [] (pyStr "last_display")
      (Json.obj [(pyStr "danish", .str (pyStr "æøå")),
        (pyStr "emoji", .str (pyStr "🗑️"))]))
    (stateManager_set_reload_roundtrip [] (pyStr "last_display")
      (Json.obj [(pyStr "danish", .str (pyStr "æøå")),
        (pyStr "emoji", .str (pyStr "🗑️"))])).1
